import Mathlib

/-!
Shallow embedding of the analysis-and-cleaning core of the `ai-paper-analyzer`
repository: `src/core/analyzer.py` (class `PaperAnalyzer`) and
`src/core/cleaner.py` (class `DataCleaner`).

Modelling conventions:
* Python strings are Lean `String`; dictionary fields that may be absent are
  `Option` fields (a missing key is `none`).
* The external language-model client is an oracle parameter; one call outcome
  is `Except Unit String` (`Except.error` models a raised exception,
  `Except.ok s` a returned text, with Python truthiness `s ≠ ""`).
* The data classes `models/paper.py` and `models/report.py` are not among the
  sources; their field layout is modelled from the spec (section 3).
* Logging, console output and the progress-display threads have no effect on
  the data flow and are omitted.
-/

/-- Python ASCII whitespace as removed by `str.strip()`. -/
def pyIsSpace (c : Char) : Bool :=
  c = ' ' || c = '\t' || c = '\n' || c = '\r' || c = '\x0b' || c = '\x0c'

/-- Python `str.strip()`: drop leading and trailing whitespace. -/
def pyStrip (s : String) : String :=
  String.mk (((s.toList.dropWhile pyIsSpace).reverse.dropWhile pyIsSpace).reverse)

/-- Python `s[:n]` character slicing. -/
def pyTake (n : Nat) (s : String) : String :=
  String.mk (s.toList.take n)

/-- Python `s.replace('\n', ' ')`: a single-character replacement is a map. -/
def replaceNewlines (s : String) : String :=
  String.mk (s.toList.map (fun c => if c = '\n' then ' ' else c))

/-- Python `sep.join(l)`. -/
def joinSep (sep : String) : List String → String
  | [] => ""
  | [a] => a
  | a :: rest => a ++ sep ++ joinSep sep rest

/-- Worker for `removeAll`, with fuel so that the recursion is structural;
`fuel = s.length` always suffices because every step consumes at least one
character of `s`. -/
def removeAllAux (pat : List Char) : Nat → List Char → List Char
  | 0, s => s
  | _ + 1, [] => []
  | n + 1, c :: rest =>
    if pat.isPrefixOf (c :: rest) && !pat.isEmpty then
      removeAllAux pat n (rest.drop (pat.length - 1))
    else c :: removeAllAux pat n rest

/-- Python `s.replace(pat, '')`: delete every leftmost-first occurrence. -/
def removeAll (pat s : String) : String :=
  String.mk (removeAllAux pat.toList s.toList.length s.toList)

/-- Python `s.startswith(pre)`. -/
def startsWithStr (pre s : String) : Bool :=
  pre.toList.isPrefixOf s.toList

/-- Python `s.split(sep)` for a one-character separator (keeps empty pieces). -/
def splitOnChar (sep : Char) : List Char → List (List Char)
  | [] => [[]]
  | c :: rest =>
    let r := splitOnChar sep rest
    if c = sep then [] :: r
    else
      match r with
      | [] => [[c]]
      | h :: t => (c :: h) :: t

/-- Python `s.split('\n')` as used on the assistant response. -/
def pyLines (s : String) : List String :=
  (splitOnChar '\n' s.toList).map String.mk

/-- Modelled from the spec: `CanonicalPaper` (`models/paper.py` is not among
the sources); the fields are exactly the keys produced by
`DataCleaner._extract_paper_info`. -/
structure Paper where
  id : String
  title : String
  translation : String
  url : String
  authors : String
  publish_date : String
  summary : String
  github_repo : String
  project_page : String
  model_function : String
deriving Repr, DecidableEq

/-- Modelled from the spec: `AnalysisResult` (`models/report.py` is not among
the sources); the fields are exactly the keyword arguments passed to the
constructor in `PaperAnalyzer.analyze_single`. -/
structure AnalysisResult where
  id : String
  title_en : String
  title_zh : String
  url : String
  authors : String
  publish_date : String
  summary_en : String
  summary_zh : String
  github_repo : String
  project_page : String
  model_function : String
deriving Repr, DecidableEq

namespace DataCleaner

/-- One entry of a raw `authors` list: a dict with a `name` key, a plain
string, or a value of any other type (which the loop ignores). -/
inductive AuthorEntry where
  | named (name : String)
  | plain (s : String)
  | other
deriving Repr, DecidableEq

/-- The raw `authors` field: a list, a single string, or anything else
(`paper_data.get('authors', [])` with the isinstance checks). -/
inductive AuthorsField where
  | list (entries : List AuthorEntry)
  | str (s : String)
  | other
deriving Repr, DecidableEq

/-- The dict probed by `_extract_paper_info`; `none` models an absent key. -/
structure RawPaperData where
  id : Option String
  title : Option String
  authors : AuthorsField
  url : Option String
  publishedAt : Option String
  publishedDate : Option String
  published : Option String
  summary : Option String
  githubRepo : Option String
  projectPage : Option String
deriving Repr, DecidableEq

/-- A raw record: either an envelope with a `paper` key or the paper dict
itself (`item.get('paper', item)`). -/
inductive RawRecord where
  | wrapped (paper : RawPaperData)
  | bare (paper : RawPaperData)
deriving Repr, DecidableEq

def getPaperData : RawRecord → RawPaperData
  | .wrapped p => p
  | .bare p => p

/-- One author entry's contribution to `authors_list`: a dict entry is kept
only when its `name` is truthy; a plain string entry is always kept. -/
def authorName : AuthorEntry → Option String
  | .named n => if n = "" then none else some n
  | .plain s => some s
  | .other => none

/-- The `authors_list` built by `_extract_paper_info`. -/
def authorsList : AuthorsField → List String
  | .list entries => entries.filterMap authorName
  | .str s => [s]
  | .other => []

/-- Python `a or b or c or ''` over `.get` results: first truthy value. -/
def firstTruthy : List (Option String) → String
  | [] => ""
  | some s :: rest => if s ≠ "" then s else firstTruthy rest
  | none :: rest => firstTruthy rest

/-- `DataCleaner._extract_paper_info`: extract one `CanonicalPaper` from a raw
record, or `None` when `id` or the normalized `title` is empty. -/
def extract_paper_info (item : RawRecord) : Option Paper :=
  let pd := getPaperData item
  let paper_id := pd.id.getD ""
  let title := replaceNewlines (pyStrip (pd.title.getD ""))
  if paper_id = "" ∨ title = "" then none
  else
    let authors_list := authorsList pd.authors
    let authors_str := if authors_list ≠ [] then joinSep ", " authors_list else "未知作者"
    some
      { id := paper_id
        title := title
        translation := title
        url := pd.url.getD ("https://arxiv.org/abs/" ++ paper_id)
        authors := authors_str
        publish_date := firstTruthy [pd.publishedAt, pd.publishedDate, pd.published]
        summary := pd.summary.getD ""
        github_repo := pd.githubRepo.getD ""
        project_page := pd.projectPage.getD ""
        model_function := "" }

/-- `DataCleaner._clean_with_rules`: per-item extraction, dropping items whose
extraction returns `None` (and items that raise, which the loop also skips). -/
def clean_with_rules (raw : List RawRecord) : List Paper :=
  raw.filterMap extract_paper_info

/-- `DataCleaner._parse_ai_response`: the stub parser, faithful to the source:
it always returns the empty list. -/
def parse_ai_response (response : String) : List Paper :=
  []

/-- `DataCleaner._clean_with_ai`: one assistant call (`chatOutcome`); on a
raised exception or an empty response it falls back to `_clean_with_rules`,
while a non-empty response is parsed (by the stub) and returned as is. -/
def clean_with_ai (chatOutcome : Except Unit String) (raw : List RawRecord) : List Paper :=
  match chatOutcome with
  | .error _ => clean_with_rules raw
  | .ok response =>
    if response ≠ "" then parse_ai_response response
    else clean_with_rules raw

end DataCleaner

namespace PaperAnalyzer

/-- Try to match the regex `(\d{4}-\d{2}-\d{2})` at the head of the list. -/
def matchDateAt : List Char → Option String
  | a :: b :: c :: d :: '-' :: e :: f :: '-' :: g :: h :: _ =>
    if a.isDigit && b.isDigit && c.isDigit && d.isDigit
        && e.isDigit && f.isDigit && g.isDigit && h.isDigit then
      some (String.mk [a, b, c, d, '-', e, f, '-', g, h])
    else none
  | _ => none

/-- Python `re.search(r'(\d{4}-\d{2}-\d{2})', s)`: leftmost match. -/
def searchDate : List Char → Option String
  | [] => none
  | c :: cs =>
    match matchDateAt (c :: cs) with
    | some s => some s
    | none => searchDate cs

/-- The guard `len(date_str) == 10 and date_str.count('-') == 2`. -/
def isLen10TwoDash (s : String) : Bool :=
  s.length == 10 && (s.toList.filter (fun c => c == '-')).length == 2

/-- `PaperAnalyzer._format_publish_date`. -/
def format_publish_date (date_str : String) : String :=
  if date_str = "" ∨ date_str = "暂无" then "暂无"
  else if date_str.toList.contains 'T' then
    String.mk (date_str.toList.takeWhile (fun c => c ≠ 'T'))
  else if isLen10TwoDash date_str then date_str
  else
    match searchDate date_str.toList with
    | some d => d
    | none => date_str

/-- The spec's `YYYY-MM-DD` shape: exactly ten characters `dddd-dd-dd`.
This definition follows the spec's words, for comparison with
`format_publish_date`'s output. -/
def specIsYMD (s : String) : Bool :=
  match s.toList with
  | [a, b, c, d, '-', e, f, '-', g, h] =>
    a.isDigit && b.isDigit && c.isDigit && d.isDigit
      && e.isDigit && f.isDigit && g.isDigit && h.isDigit
  | _ => false

/-- The three parsed fields of `PaperAnalyzer._parse_ai_response`. -/
structure ParsedFields where
  title_zh : String
  summary_zh : String
  model_function : String
deriving Repr, DecidableEq

/-- One iteration of the line loop in `_parse_ai_response`. -/
def parseLine (acc : ParsedFields) (rawLine : String) : ParsedFields :=
  let line := pyStrip rawLine
  if startsWithStr "**标题中文翻译**：" line then
    { acc with title_zh := pyStrip (removeAll "**标题中文翻译**：" line) }
  else if startsWithStr "**摘要中文翻译**：" line then
    { acc with summary_zh := pyStrip (removeAll "**摘要中文翻译**：" line) }
  else if startsWithStr "**模型功能**：" line then
    { acc with model_function := pyStrip (removeAll "**模型功能**：" line) }
  else acc

/-- `PaperAnalyzer._parse_ai_response`: line-oriented tagged parsing with the
final `model_function` defaulting. -/
def parse_ai_response (response : String) : ParsedFields :=
  let fields := (pyLines (pyStrip response)).foldl parseLine ⟨"", "", "暂无"⟩
  if fields.model_function = "" ∨ pyStrip fields.model_function = "" then
    { fields with model_function := "暂无" }
  else fields

/-- The shared `summary_zh` fallback: truncate at 200 characters with an
ellipsis, then substitute the no-summary sentinel for empty or `暂无`. -/
def truncatedSummary (summary : String) : String :=
  let s := if 200 < summary.length then pyTake 200 summary ++ "..." else summary
  if s = "" ∨ s = "暂无" then "无摘要信息" else s

/-- The basic result built by `analyze_single` when the assistant is
disabled or unavailable. -/
def basicResult (paper : Paper) : AnalysisResult :=
  { id := paper.id
    title_en := paper.title
    title_zh := paper.translation
    url := paper.url
    authors := paper.authors
    publish_date := format_publish_date paper.publish_date
    summary_en := paper.summary
    summary_zh := truncatedSummary paper.summary
    github_repo := paper.github_repo
    project_page := paper.project_page
    model_function := "暂无" }

/-- The result built from a usable assistant response, with the never-empty
fallbacks for `title_zh` and `summary_zh`. -/
def buildAiResult (paper : Paper) (pf : ParsedFields) : AnalysisResult :=
  let title_zh0 := pyStrip pf.title_zh
  let title_zh := if title_zh0 = "" then paper.title else title_zh0
  let summary_zh0 := pyStrip pf.summary_zh
  let summary_zh := if summary_zh0 = "" then truncatedSummary paper.summary else summary_zh0
  { id := paper.id
    title_en := paper.title
    title_zh := title_zh
    url := paper.url
    authors := paper.authors
    publish_date := format_publish_date paper.publish_date
    summary_en := paper.summary
    summary_zh := summary_zh
    github_repo := paper.github_repo
    project_page := paper.project_page
    model_function := pf.model_function }

/-- The retry loop of `analyze_single`: up to `fuel` attempts starting at
index `i`; an attempt is used when it returns a truthy (non-empty) response,
an exception or an empty response moves on to the next attempt, and running
out of attempts yields `none`. -/
def retryChat (oracle : Nat → Except Unit String) : Nat → Nat → Option String
  | _, 0 => none
  | i, fuel + 1 =>
    match oracle i with
    | .ok s => if s ≠ "" then some s else retryChat oracle (i + 1) fuel
    | .error _ => retryChat oracle (i + 1) fuel

/-- `PaperAnalyzer.analyze_single`: when the assistant is disabled (or its
client is unavailable) return the basic result; otherwise run up to three
attempts and build the result from the parsed response, `none` on failure. -/
def analyze_single (useAi : Bool) (oracle : Nat → Except Unit String)
    (paper : Paper) : Option AnalysisResult :=
  if useAi = false then some (basicResult paper)
  else
    match retryChat oracle 0 3 with
    | none => none
    | some response => some (buildAiResult paper (parse_ai_response response))

/-- Modelled from the spec: `_extract_paper_id_from_result` reads the stored
record's `paper_id`/`id` field, which is the result's `id`
(`AnalysisResult.to_dict` lives in the absent `models/report.py`). -/
def extract_paper_id_from_result (r : AnalysisResult) : String :=
  r.id

/-- `PaperAnalyzer._save_single_result`: drop every stored entry with the same
id, then append the new result. -/
def save_single_result (result : AnalysisResult) (store : List AnalysisResult) :
    List AnalysisResult :=
  (store.filter (fun e => extract_paper_id_from_result e ≠ result.id)) ++ [result]

/-- The outcome of one `analyze_single` call as seen by the batch loop:
a result, a `None` return, or a raised exception (caught by the loop). -/
inductive SingleOutcome where
  | succeeded (r : AnalysisResult)
  | failed
  | raised

/-- The batch statistics kept by `analyze_batch`. -/
structure BatchStats where
  processed : Nat
  succeeded : Nat
  failed : Nat
  skipped : Nat
deriving Repr, DecidableEq

/-- The state threaded through the batch loop: the in-memory results, the
on-disk result store for the date, and the counters. -/
structure BatchResult where
  results : List AnalysisResult
  store : List AnalysisResult
  stats : BatchStats
deriving Repr, DecidableEq

/-- One iteration of the paper loop in `analyze_batch`: skip when the id was
already present at batch start, otherwise analyze, persist on success, and
count a failure on a `None` return or a caught exception. -/
def batchStep (oracle : Paper → SingleOutcome) (existingIds : List String)
    (acc : BatchResult) (paper : Paper) : BatchResult :=
  if paper.id ∈ existingIds then
    { acc with stats := { acc.stats with skipped := acc.stats.skipped + 1 } }
  else
    match oracle paper with
    | .succeeded r =>
      { results := acc.results ++ [r]
        store := save_single_result r acc.store
        stats := { acc.stats with
                    processed := acc.stats.processed + 1
                    succeeded := acc.stats.succeeded + 1 } }
    | .failed =>
      { acc with stats := { acc.stats with
                              processed := acc.stats.processed + 1
                              failed := acc.stats.failed + 1 } }
    | .raised =>
      { acc with stats := { acc.stats with
                              processed := acc.stats.processed + 1
                              failed := acc.stats.failed + 1 } }

/-- `PaperAnalyzer.analyze_batch` with a date: the set of already-processed
ids is computed once from the store's contents at batch start, then the
papers are processed sequentially. -/
def analyze_batch (oracle : Paper → SingleOutcome) (store₀ : List AnalysisResult)
    (papers : List Paper) : BatchResult :=
  papers.foldl (batchStep oracle (store₀.map extract_paper_id_from_result))
    ⟨[], store₀, ⟨0, 0, 0, 0⟩⟩

/-- An assistant behaviour under which every single analysis succeeds. -/
def successOracle (f : Paper → AnalysisResult) : Paper → SingleOutcome :=
  fun p => .succeeded (f p)

end PaperAnalyzer

section SampleData

open DataCleaner

/-- The raw record of the spec's concrete cleaning example. -/
def sampleRawRecord : RawRecord :=
  .wrapped
    { id := some "1234.5678", title := some "A Title\n",
      authors := .list [.named "Jane Doe"], url := none, publishedAt := none,
      publishedDate := none, published := none, summary := none,
      githubRepo := none, projectPage := none }

/-- The same raw record with an empty author list. -/
def sampleRawRecordNoAuthors : RawRecord :=
  .wrapped
    { id := some "1234.5678", title := some "A Title\n",
      authors := .list [], url := none, publishedAt := none,
      publishedDate := none, published := none, summary := none,
      githubRepo := none, projectPage := none }

/-- A raw record without an `id`, which rule-based extraction must drop. -/
def badRawRecord : RawRecord :=
  .bare
    { id := none, title := some "A Title",
      authors := .list [], url := none, publishedAt := none,
      publishedDate := none, published := none, summary := none,
      githubRepo := none, projectPage := none }

/-- The canonical paper extracted from `sampleRawRecord`. -/
def samplePaper : Paper :=
  { id := "1234.5678", title := "A Title", translation := "A Title",
    url := "https://arxiv.org/abs/1234.5678", authors := "Jane Doe",
    publish_date := "", summary := "", github_repo := "", project_page := "",
    model_function := "" }

/-- A degenerate paper whose every field is the empty string. -/
def emptyPaper : Paper :=
  { id := "", title := "", translation := "", url := "", authors := "",
    publish_date := "", summary := "", github_repo := "", project_page := "",
    model_function := "" }

/-- A paper whose summary has exactly 500 characters. -/
def paper500 : Paper :=
  { id := "p", title := "t", translation := "t", url := "", authors := "",
    publish_date := "", summary := String.mk (List.replicate 500 'a'),
    github_repo := "", project_page := "", model_function := "" }

end SampleData

namespace PaperAnalyzer

theorem sentinel_step_ne (x : String) :
    (if x = "" ∨ x = "暂无" then "无摘要信息" else x) ≠ "" := by
  split
  · decide
  · rename_i h
    push_neg at h
    exact h.1

theorem truncatedSummary_ne_empty (s : String) : truncatedSummary s ≠ "" := by
  unfold truncatedSummary
  dsimp only
  exact sentinel_step_ne _

theorem matchDateAt_isYMD {l : List Char} {d : String}
    (h : matchDateAt l = some d) : specIsYMD d = true := by
  unfold matchDateAt at h
  split at h
  · rename_i a b c d' e f g h' rest
    split at h
    · rename_i hguard
      cases h
      simpa [specIsYMD] using hguard
    · exact absurd h (by simp)
  · exact absurd h (by simp)

theorem searchDate_isYMD : ∀ {l : List Char} {d : String},
    searchDate l = some d → specIsYMD d = true := by
  intro l
  induction l with
  | nil => intro d h; simp [searchDate] at h
  | cons c cs ih =>
    intro d h
    rw [searchDate] at h
    cases hm : matchDateAt (c :: cs) with
    | some s => rw [hm] at h; cases h; exact matchDateAt_isYMD hm
    | none => rw [hm] at h; exact ih h

theorem buildAiResult_title_zh_ne (paper : Paper) (pf : ParsedFields)
    (h : paper.title ≠ "") : (buildAiResult paper pf).title_zh ≠ "" := by
  unfold buildAiResult
  dsimp only
  split
  · exact h
  · rename_i hne; exact hne

theorem buildAiResult_summary_zh_ne (paper : Paper) (pf : ParsedFields) :
    (buildAiResult paper pf).summary_zh ≠ "" := by
  unfold buildAiResult
  dsimp only
  split
  · exact truncatedSummary_ne_empty _
  · rename_i hne; exact hne

end PaperAnalyzer

open PaperAnalyzer DataCleaner

/-- Claim C5 (amended): every output of `format_publish_date` is the `暂无`
sentinel, a `YYYY-MM-DD`-shaped string, the part of the input before the time
separator `T`, or the input returned unchanged. -/
theorem format_publish_date_output_shapes (s : String) :
    format_publish_date s = "暂无"
    ∨ specIsYMD (format_publish_date s) = true
    ∨ format_publish_date s = String.mk (s.toList.takeWhile (fun c => c ≠ 'T'))
    ∨ format_publish_date s = s := by
  unfold format_publish_date
  split
  · simp
  · split
    · simp
    · split
      · simp
      · cases h : searchDate s.toList with
        | some d => simp [h, searchDate_isYMD h]
        | none => simp [h]

/-- Claim C5, original form refuted: on input `"hello"` the function returns
`"hello"` unchanged, which is neither `YYYY-MM-DD`-shaped nor the sentinel. -/
theorem format_publish_date_output_shapes_cex :
    format_publish_date "hello" = "hello"
    ∧ specIsYMD "hello" = false
    ∧ ("hello" : String) ≠ "暂无" := by decide

/-- Claim C6: `format_publish_date` truncates an ISO-8601 timestamp at the
time separator, passes a `YYYY-MM-DD` string through unchanged, extracts a
`YYYY-MM-DD` pattern from a cascade-wise later string via the regex search
and otherwise returns the input unchanged, and maps empty or sentinel input
to the sentinel. -/
theorem format_publish_date_normalizes (s t : String)
    (h1 : s ≠ "") (h2 : s ≠ "暂无")
    (h3 : s.toList.contains 'T' = false)
    (h4 : isLen10TwoDash s = false)
    (h5 : t ≠ "") (h6 : t ≠ "暂无")
    (h7 : t.toList.contains 'T' = true) :
    format_publish_date "2025-07-31T17:00:30.000Z" = "2025-07-31"
    ∧ format_publish_date "2025-07-31" = "2025-07-31"
    ∧ format_publish_date "" = "暂无"
    ∧ format_publish_date "暂无" = "暂无"
    ∧ format_publish_date t = String.mk (t.toList.takeWhile (fun c => c ≠ 'T'))
    ∧ format_publish_date s = (match searchDate s.toList with
        | some d => d
        | none => s) := by
  have h3m : 'T' ∉ s.data := by simpa using h3
  have h7m : 'T' ∈ t.data := by simpa using h7
  refine ⟨by decide, by decide, by decide, by decide, ?_, ?_⟩
  · simp [format_publish_date, h5, h6, h7m]
  · simp [format_publish_date, h1, h2, h3m, h4]

theorem format_publish_date_normalizes_witness :
    format_publish_date "2025-07-31T17:00:30.000Z" = "2025-07-31"
    ∧ format_publish_date "2025-07-31" = "2025-07-31"
    ∧ format_publish_date "" = "暂无"
    ∧ format_publish_date "暂无" = "暂无"
    ∧ format_publish_date "2025-07-31T17:00:30.000Z"
        = String.mk (("2025-07-31T17:00:30.000Z" : String).toList.takeWhile (fun c => c ≠ 'T'))
    ∧ format_publish_date "published 2025-07-31 ok"
        = (match searchDate ("published 2025-07-31 ok" : String).toList with
            | some d => d
            | none => "published 2025-07-31 ok") :=
  format_publish_date_normalizes "published 2025-07-31 ok" "2025-07-31T17:00:30.000Z"
    (by decide) (by decide) (by decide) (by decide) (by decide) (by decide) (by decide)

/-- Claim C7: rule-based extraction silently drops (returns `none` for) every
record whose extracted id or normalized title is empty, and every paper in
its output has a non-empty id and a non-empty title. -/
theorem rule_extraction_requires_id_title
    (raw : List DataCleaner.RawRecord) (p : Paper) (item : DataCleaner.RawRecord)
    (hp : p ∈ clean_with_rules raw)
    (hbad : (getPaperData item).id.getD "" = ""
      ∨ replaceNewlines (pyStrip ((getPaperData item).title.getD "")) = "") :
    p.id ≠ "" ∧ p.title ≠ "" ∧ extract_paper_info item = none := by
  obtain ⟨it, hmem, hit⟩ := List.mem_filterMap.mp hp
  have hdrop : extract_paper_info item = none := by
    unfold extract_paper_info
    dsimp only
    rw [if_pos hbad]
  refine ⟨?_, ?_, hdrop⟩ <;>
  · unfold extract_paper_info at hit
    dsimp only at hit
    split at hit
    · exact absurd hit (by simp)
    · rename_i hcond
      push_neg at hcond
      cases hit
      first
      | exact hcond.1
      | exact hcond.2

theorem rule_extraction_requires_id_title_witness :
    samplePaper.id ≠ "" ∧ samplePaper.title ≠ ""
    ∧ extract_paper_info badRawRecord = none :=
  rule_extraction_requires_id_title [sampleRawRecord] samplePaper badRawRecord
    (by decide) (by decide)

/-- Claim C8: on the spec's sample raw record, rule-based extraction yields
exactly the expected canonical paper (normalized title, translation equal to
the title, comma-joined authors, url derived from the id); with an empty
author list the authors field is the unknown-author sentinel. -/
theorem rule_extraction_sample_record :
    extract_paper_info sampleRawRecord = some
      { id := "1234.5678", title := "A Title", translation := "A Title",
        url := "https://arxiv.org/abs/1234.5678", authors := "Jane Doe",
        publish_date := "", summary := "", github_repo := "",
        project_page := "", model_function := "" }
    ∧ (extract_paper_info sampleRawRecordNoAuthors).map Paper.authors
        = some "未知作者" := by decide

/-- Claim C4 (amended): assistant-based cleaning falls back to rule-based
extraction when the assistant call raises or returns an empty response; on a
non-empty response the stub parser's empty result is returned as is, with no
fallback, so the assistant path then returns the empty list rather than the
rule-based output. -/
theorem ai_cleaning_fallback (raw : List DataCleaner.RawRecord) (resp : String)
    (hresp : resp ≠ "") :
    clean_with_ai (Except.error ()) raw = clean_with_rules raw
    ∧ clean_with_ai (Except.ok "") raw = clean_with_rules raw
    ∧ clean_with_ai (Except.ok resp) raw = [] := by
  refine ⟨rfl, by simp [clean_with_ai], ?_⟩
  simp [clean_with_ai, hresp, DataCleaner.parse_ai_response]

theorem ai_cleaning_fallback_witness :
    clean_with_ai (Except.error ()) [sampleRawRecord] = clean_with_rules [sampleRawRecord]
    ∧ clean_with_ai (Except.ok "") [sampleRawRecord] = clean_with_rules [sampleRawRecord]
    ∧ clean_with_ai (Except.ok "1. 论文题目：A Title") [sampleRawRecord] = [] :=
  ai_cleaning_fallback [sampleRawRecord] "1. 论文题目：A Title" (by decide)

/-- Claim C4, original form refuted: with a non-empty assistant response the
assistant path returns the stub parser's empty list and does not fall back,
so its output differs from rule-based extraction on the sample record. -/
theorem ai_cleaning_fallback_cex :
    clean_with_ai (Except.ok "1. 论文题目：A Title") [sampleRawRecord]
      ≠ clean_with_rules [sampleRawRecord] := by decide

/-- Claim C9: with the assistant disabled, `analyze_single` returns, for every
paper, the basic result synthesized from the paper's own fields, for every
assistant behaviour (so it never returns `none`, and no call and no retry can
occur); and whenever the paper's summary has length 500, the produced
`summary_zh` is the first 200 characters plus an ellipsis. -/
theorem analyze_single_disabled_basic (paper : Paper)
    (oracle : Nat → Except Unit String) :
    analyze_single false oracle paper = some (basicResult paper)
    ∧ (paper.summary.length = 500 →
        (basicResult paper).summary_zh = pyTake 200 paper.summary ++ "...") := by
  constructor
  · rfl
  · intro hlen
    show truncatedSummary paper.summary = _
    have hlt : 200 < paper.summary.length := by omega
    have htake : (pyTake 200 paper.summary ++ "...").data.length = 203 := by
      simp [String.data_append, pyTake, hlen]
    unfold truncatedSummary
    dsimp only
    rw [if_pos hlt, if_neg ?_]
    rintro (h | h) <;>
    · rw [h] at htake
      simp at htake

theorem analyze_single_disabled_basic_witness :
    analyze_single false (fun _ => Except.error ()) paper500 = some (basicResult paper500)
    ∧ (basicResult paper500).summary_zh = pyTake 200 paper500.summary ++ "..." :=
  ⟨(analyze_single_disabled_basic paper500 (fun _ => Except.error ())).1,
    (analyze_single_disabled_basic paper500 (fun _ => Except.error ())).2
      (by show (String.mk (List.replicate 500 'a')).length = 500
          rw [String.length_mk, List.length_replicate])⟩

theorem analyze_single_fields_ne (useAi : Bool) (oracle : Nat → Except Unit String)
    (paper : Paper) (r : AnalysisResult)
    (htitle : paper.title ≠ "") (htrans : paper.translation ≠ "")
    (hres : analyze_single useAi oracle paper = some r) :
    r.title_zh ≠ "" ∧ r.summary_zh ≠ "" := by
  cases useAi with
  | false =>
    have h0 : analyze_single false oracle paper = some (basicResult paper) := rfl
    rw [h0] at hres
    injection hres with h
    subst h
    exact ⟨htrans, truncatedSummary_ne_empty _⟩
  | true =>
    unfold analyze_single at hres
    rw [if_neg (show ¬(true = false) by decide)] at hres
    cases hret : retryChat oracle 0 3 with
    | none =>
      rw [hret] at hres
      simp at hres
    | some resp =>
      rw [hret] at hres
      dsimp only at hres
      injection hres with h
      subst h
      exact ⟨buildAiResult_title_zh_ne _ _ htitle, buildAiResult_summary_zh_ne _ _⟩

/-- Claim C3 (amended): for every paper with a non-empty title and a non-empty
translation, every result `analyze_single` produces has non-empty `title_zh`
and `summary_zh`; when the parsed assistant response has a blank `title_zh`
the built result falls back to the English title, and when it has a blank
`summary_zh` it falls back to the truncated-summary fallback value. -/
theorem analysis_result_fields_nonempty (paper : Paper) (useAi : Bool)
    (oracle : Nat → Except Unit String) (r : AnalysisResult) (pf : ParsedFields)
    (htitle : paper.title ≠ "") (htrans : paper.translation ≠ "")
    (hres : analyze_single useAi oracle paper = some r)
    (hpt : pyStrip pf.title_zh = "") (hps : pyStrip pf.summary_zh = "") :
    r.title_zh ≠ "" ∧ r.summary_zh ≠ ""
    ∧ (buildAiResult paper pf).title_zh = paper.title
    ∧ (buildAiResult paper pf).summary_zh = truncatedSummary paper.summary := by
  have hfb1 : (buildAiResult paper pf).title_zh = paper.title := by
    unfold buildAiResult
    dsimp only
    rw [if_pos hpt]
  have hfb2 : (buildAiResult paper pf).summary_zh = truncatedSummary paper.summary := by
    unfold buildAiResult
    dsimp only
    rw [if_pos hps]
  have hne := analyze_single_fields_ne useAi oracle paper r htitle htrans hres
  exact ⟨hne.1, hne.2, hfb1, hfb2⟩

theorem analysis_result_fields_nonempty_witness :
    (basicResult samplePaper).title_zh ≠ "" ∧ (basicResult samplePaper).summary_zh ≠ ""
    ∧ (buildAiResult samplePaper ⟨"", "", "暂无"⟩).title_zh = samplePaper.title
    ∧ (buildAiResult samplePaper ⟨"", "", "暂无"⟩).summary_zh
        = truncatedSummary samplePaper.summary :=
  analysis_result_fields_nonempty samplePaper false (fun _ => Except.error ())
    (basicResult samplePaper) ⟨"", "", "暂无"⟩
    (by decide) (by decide) rfl (by decide) (by decide)

/-- Claim C3, original form refuted: for a paper whose `translation` field is
empty, the assistant-disabled path returns a result whose `title_zh` is the
empty string. -/
theorem analysis_result_fields_nonempty_cex :
    (analyze_single false (fun _ => Except.error ()) emptyPaper).map
      AnalysisResult.title_zh = some "" := by decide

namespace PaperAnalyzer

theorem batchStep_skip_processed (oracle : Paper → SingleOutcome) (ids : List String)
    (acc : BatchResult) (p : Paper) :
    (batchStep oracle ids acc p).stats.skipped + (batchStep oracle ids acc p).stats.processed
      = acc.stats.skipped + acc.stats.processed + 1 := by
  unfold batchStep
  split
  · dsimp only
    omega
  · cases h : oracle p <;> dsimp only <;> omega

theorem foldl_skip_processed (oracle : Paper → SingleOutcome) (ids : List String) :
    ∀ (ps : List Paper) (acc : BatchResult),
    (ps.foldl (batchStep oracle ids) acc).stats.skipped
      + (ps.foldl (batchStep oracle ids) acc).stats.processed
      = acc.stats.skipped + acc.stats.processed + ps.length
  | [], acc => by simp
  | p :: ps, acc => by
    simp only [List.foldl_cons, List.length_cons]
    have hrec := foldl_skip_processed oracle ids ps (batchStep oracle ids acc p)
    have hstep := batchStep_skip_processed oracle ids acc p
    omega

theorem batchStep_fail (oracle : Paper → SingleOutcome) (ids : List String)
    (acc : BatchResult) (p : Paper)
    (hp : oracle p = SingleOutcome.failed ∨ oracle p = SingleOutcome.raised) :
    (batchStep oracle ids acc p).stats.succeeded = acc.stats.succeeded
    ∧ (batchStep oracle ids acc p).stats.failed + (batchStep oracle ids acc p).stats.skipped
      = acc.stats.failed + acc.stats.skipped + 1 := by
  unfold batchStep
  split
  · dsimp only
    exact ⟨rfl, by omega⟩
  · rcases hp with h | h <;> rw [h] <;> dsimp only <;> exact ⟨rfl, by omega⟩

theorem foldl_fail (oracle : Paper → SingleOutcome) (ids : List String) :
    ∀ (ps : List Paper) (acc : BatchResult),
    (∀ p ∈ ps, oracle p = SingleOutcome.failed ∨ oracle p = SingleOutcome.raised) →
    (ps.foldl (batchStep oracle ids) acc).stats.succeeded = acc.stats.succeeded
    ∧ (ps.foldl (batchStep oracle ids) acc).stats.failed
        + (ps.foldl (batchStep oracle ids) acc).stats.skipped
      = acc.stats.failed + acc.stats.skipped + ps.length
  | [], acc, _ => by simp
  | p :: ps, acc, h => by
    simp only [List.foldl_cons, List.length_cons]
    have hstep := batchStep_fail oracle ids acc p (h p (by simp))
    have hrec := foldl_fail oracle ids ps (batchStep oracle ids acc p)
      (fun q hq => h q (by simp [hq]))
    exact ⟨hrec.1.trans hstep.1, by omega⟩

theorem batchStep_skip (oracle : Paper → SingleOutcome) (ids : List String)
    (acc : BatchResult) (p : Paper) (hp : p.id ∈ ids) :
    batchStep oracle ids acc p
      = { acc with stats := { acc.stats with skipped := acc.stats.skipped + 1 } } := by
  unfold batchStep
  rw [if_pos hp]

theorem foldl_all_skip (oracle : Paper → SingleOutcome) (ids : List String) :
    ∀ (ps : List Paper) (acc : BatchResult), (∀ p ∈ ps, p.id ∈ ids) →
    (ps.foldl (batchStep oracle ids) acc).store = acc.store
    ∧ (ps.foldl (batchStep oracle ids) acc).stats.skipped
      = acc.stats.skipped + ps.length
  | [], acc, _ => by simp
  | p :: ps, acc, h => by
    simp only [List.foldl_cons, List.length_cons]
    rw [batchStep_skip oracle ids acc p (h p (by simp))]
    have hrec := foldl_all_skip oracle ids ps
      { acc with stats := { acc.stats with skipped := acc.stats.skipped + 1 } }
      (fun q hq => h q (by simp [hq]))
    refine ⟨hrec.1, ?_⟩
    rw [hrec.2]
    dsimp only
    omega

theorem batchStep_success (f : Paper → AnalysisResult) (ids : List String)
    (acc : BatchResult) (p : Paper) (hp : p.id ∉ ids) :
    batchStep (successOracle f) ids acc p
      = { results := acc.results ++ [f p]
          store := save_single_result (f p) acc.store
          stats := { acc.stats with
                      processed := acc.stats.processed + 1
                      succeeded := acc.stats.succeeded + 1 } } := by
  unfold batchStep successOracle
  rw [if_neg hp]

theorem foldl_all_success_succeeded (f : Paper → AnalysisResult) (ids : List String) :
    ∀ (ps : List Paper) (acc : BatchResult), (∀ p ∈ ps, p.id ∉ ids) →
    (ps.foldl (batchStep (successOracle f) ids) acc).stats.succeeded
      = acc.stats.succeeded + ps.length
  | [], acc, _ => by simp
  | p :: ps, acc, h => by
    simp only [List.foldl_cons, List.length_cons]
    rw [batchStep_success f ids acc p (h p (by simp))]
    rw [foldl_all_success_succeeded f ids ps _ (fun q hq => h q (by simp [hq]))]
    dsimp only
    omega

theorem save_map_mem (r : AnalysisResult) (s : List AnalysisResult) (x : String) :
    x ∈ (save_single_result r s).map extract_paper_id_from_result
      ↔ x ∈ s.map extract_paper_id_from_result ∨ x = r.id := by
  unfold save_single_result
  rw [List.map_append, List.mem_append]
  constructor
  · rintro (hl | hr)
    · obtain ⟨e, he, heq⟩ := List.mem_map.mp hl
      exact Or.inl (List.mem_map.mpr ⟨e, (List.mem_filter.mp he).1, heq⟩)
    · right
      simpa [extract_paper_id_from_result] using hr
  · rintro (hl | rfl)
    · obtain ⟨e, he, heq⟩ := List.mem_map.mp hl
      by_cases hcase : extract_paper_id_from_result e = r.id
      · right
        simp only [List.map_cons, List.map_nil, List.mem_singleton,
          extract_paper_id_from_result]
        rw [← heq]
        exact hcase
      · left
        exact List.mem_map.mpr ⟨e, List.mem_filter.mpr ⟨he, by simpa using hcase⟩, heq⟩
    · right
      simp [extract_paper_id_from_result]

theorem save_map_nodup (r : AnalysisResult) (s : List AnalysisResult)
    (h : (s.map extract_paper_id_from_result).Nodup) :
    ((save_single_result r s).map extract_paper_id_from_result).Nodup := by
  unfold save_single_result
  rw [List.map_append, List.nodup_append]
  refine ⟨?_, by simp, ?_⟩
  · exact List.Nodup.sublist (List.Sublist.map _ (List.filter_sublist s)) h
  · intro x hx
    obtain ⟨e, he, heq⟩ := List.mem_map.mp hx
    have hne : extract_paper_id_from_result e ≠ r.id := by
      simpa using (List.mem_filter.mp he).2
    simp only [List.map_cons, List.map_nil, List.mem_singleton]
    rw [← heq]
    simpa [extract_paper_id_from_result] using hne

theorem foldl_all_success_store (f : Paper → AnalysisResult) (ids : List String)
    (hid : ∀ p : Paper, (f p).id = p.id) :
    ∀ (ps : List Paper) (acc : BatchResult), (∀ p ∈ ps, p.id ∉ ids) →
    ((acc.store.map extract_paper_id_from_result).Nodup →
      ((ps.foldl (batchStep (successOracle f) ids) acc).store.map
        extract_paper_id_from_result).Nodup)
    ∧ (∀ x, x ∈ (ps.foldl (batchStep (successOracle f) ids) acc).store.map
            extract_paper_id_from_result
        ↔ x ∈ acc.store.map extract_paper_id_from_result ∨ x ∈ ps.map Paper.id)
  | [], acc, _ => by simp
  | p :: ps, acc, h => by
    simp only [List.foldl_cons, List.map_cons]
    rw [batchStep_success f ids acc p (h p (by simp))]
    have hrec := foldl_all_success_store f ids hid ps
      { results := acc.results ++ [f p]
        store := save_single_result (f p) acc.store
        stats := { acc.stats with
                    processed := acc.stats.processed + 1
                    succeeded := acc.stats.succeeded + 1 } }
      (fun q hq => h q (by simp [hq]))
    constructor
    · intro hnd
      exact hrec.1 (save_map_nodup (f p) acc.store hnd)
    · intro x
      rw [hrec.2 x]
      dsimp only
      rw [save_map_mem, hid p, List.mem_cons]
      tauto

end PaperAnalyzer

namespace PaperAnalyzer

theorem analyze_batch_all_skip (oracle : Paper → SingleOutcome)
    (store₀ : List AnalysisResult) (papers : List Paper)
    (h : ∀ p ∈ papers, p.id ∈ store₀.map extract_paper_id_from_result) :
    (analyze_batch oracle store₀ papers).store = store₀
    ∧ (analyze_batch oracle store₀ papers).stats.skipped = papers.length := by
  unfold analyze_batch
  have hall := foldl_all_skip oracle (store₀.map extract_paper_id_from_result)
    papers ⟨[], store₀, ⟨0, 0, 0, 0⟩⟩ h
  exact ⟨hall.1, by simpa using hall.2⟩

theorem analyze_batch_fresh_store_spec (f : Paper → AnalysisResult)
    (papers : List Paper) (hid : ∀ p : Paper, (f p).id = p.id) :
    ((analyze_batch (successOracle f) [] papers).store.map
      extract_paper_id_from_result).Nodup
    ∧ (∀ x, x ∈ (analyze_batch (successOracle f) [] papers).store.map
          extract_paper_id_from_result
        ↔ x ∈ papers.map Paper.id)
    ∧ (analyze_batch (successOracle f) [] papers).stats.succeeded = papers.length := by
  unfold analyze_batch
  have h0 : ∀ p ∈ papers,
      p.id ∉ (([] : List AnalysisResult).map extract_paper_id_from_result) := by
    simp
  have hs := foldl_all_success_store f
    (([] : List AnalysisResult).map extract_paper_id_from_result) hid papers
    ⟨[], [], ⟨0, 0, 0, 0⟩⟩ h0
  have hd := foldl_all_success_succeeded f
    (([] : List AnalysisResult).map extract_paper_id_from_result) papers
    ⟨[], [], ⟨0, 0, 0, 0⟩⟩ h0
  refine ⟨hs.1 (by simp), ?_, by simpa using hd⟩
  intro x
  have hx := hs.2 x
  simpa using hx

end PaperAnalyzer

/-- Claim C2: when every single analysis fails (a `None` return or a raised
exception), the batch completes with `succeeded = 0`, `failed = processed`,
and every input paper accounted for as skipped or processed. -/
theorem analyze_batch_failures_accounted (oracle : Paper → SingleOutcome)
    (store₀ : List AnalysisResult) (papers : List Paper)
    (hfail : ∀ p ∈ papers,
      oracle p = SingleOutcome.failed ∨ oracle p = SingleOutcome.raised) :
    (analyze_batch oracle store₀ papers).stats.succeeded = 0
    ∧ (analyze_batch oracle store₀ papers).stats.failed
        = (analyze_batch oracle store₀ papers).stats.processed
    ∧ (analyze_batch oracle store₀ papers).stats.skipped
        + (analyze_batch oracle store₀ papers).stats.processed = papers.length := by
  unfold analyze_batch
  have h1 := foldl_skip_processed oracle (store₀.map extract_paper_id_from_result)
    papers ⟨[], store₀, ⟨0, 0, 0, 0⟩⟩
  have h2 := foldl_fail oracle (store₀.map extract_paper_id_from_result)
    papers ⟨[], store₀, ⟨0, 0, 0, 0⟩⟩ hfail
  dsimp only at h1 h2
  omega

theorem analyze_batch_failures_accounted_witness :
    (analyze_batch (fun _ => SingleOutcome.failed) [] [samplePaper]).stats.succeeded = 0
    ∧ (analyze_batch (fun _ => SingleOutcome.failed) [] [samplePaper]).stats.failed
        = (analyze_batch (fun _ => SingleOutcome.failed) [] [samplePaper]).stats.processed
    ∧ (analyze_batch (fun _ => SingleOutcome.failed) [] [samplePaper]).stats.skipped
        + (analyze_batch (fun _ => SingleOutcome.failed) [] [samplePaper]).stats.processed
        = ([samplePaper] : List Paper).length :=
  analyze_batch_failures_accounted (fun _ => SingleOutcome.failed) [] [samplePaper]
    (fun _ _ => Or.inl rfl)

/-- Claim C1 (amended): when every single analysis succeeds (with results
carrying their paper's id) and the day's store starts empty, the first run's
store holds exactly one result per distinct paper id, the second run over the
same papers skips exactly as many papers as the first run succeeded on, and
the second run leaves the store unchanged (nothing is overwritten). -/
theorem analyze_batch_rerun_idempotent (f : Paper → AnalysisResult)
    (papers : List Paper) (hid : ∀ p : Paper, (f p).id = p.id) :
    (analyze_batch (successOracle f) [] papers).store.length
      = ((papers.map Paper.id).dedup).length
    ∧ (analyze_batch (successOracle f)
        (analyze_batch (successOracle f) [] papers).store papers).stats.skipped
      = (analyze_batch (successOracle f) [] papers).stats.succeeded
    ∧ (analyze_batch (successOracle f)
        (analyze_batch (successOracle f) [] papers).store papers).store
      = (analyze_batch (successOracle f) [] papers).store := by
  obtain ⟨hnd, hmem, hsucc⟩ := analyze_batch_fresh_store_spec f papers hid
  have hskipall : ∀ p ∈ papers, p.id ∈ (analyze_batch (successOracle f) [] papers).store.map
      extract_paper_id_from_result :=
    fun p hp => (hmem p.id).mpr (List.mem_map_of_mem Paper.id hp)
  have hrun2 := analyze_batch_all_skip (successOracle f)
    (analyze_batch (successOracle f) [] papers).store papers hskipall
  refine ⟨?_, ?_, hrun2.1⟩
  · calc (analyze_batch (successOracle f) [] papers).store.length
        = ((analyze_batch (successOracle f) [] papers).store.map
            extract_paper_id_from_result).length := (List.length_map _ _).symm
      _ = ((analyze_batch (successOracle f) [] papers).store.map
            extract_paper_id_from_result).toFinset.card :=
          (List.toFinset_card_of_nodup hnd).symm
      _ = ((papers.map Paper.id).dedup).toFinset.card := by
          congr 1
          ext x
          simp only [List.mem_toFinset, List.mem_dedup]
          exact hmem x
      _ = ((papers.map Paper.id).dedup).length :=
          List.toFinset_card_of_nodup (List.nodup_dedup _)
  · rw [hrun2.2, hsucc]

theorem analyze_batch_rerun_idempotent_witness :
    (analyze_batch (successOracle basicResult) [] [samplePaper]).store.length
      = (([samplePaper].map Paper.id).dedup).length
    ∧ (analyze_batch (successOracle basicResult)
        (analyze_batch (successOracle basicResult) [] [samplePaper]).store
        [samplePaper]).stats.skipped
      = (analyze_batch (successOracle basicResult) [] [samplePaper]).stats.succeeded
    ∧ (analyze_batch (successOracle basicResult)
        (analyze_batch (successOracle basicResult) [] [samplePaper]).store
        [samplePaper]).store
      = (analyze_batch (successOracle basicResult) [] [samplePaper]).store :=
  analyze_batch_rerun_idempotent basicResult [samplePaper] (fun _ => rfl)

/-- Claim C1, original form refuted: when the single analysis fails (which the
claim's universal statement does not exclude), rerunning the batch leaves the
store's size different from the distinct paper count. -/
theorem analyze_batch_rerun_idempotent_cex :
    (analyze_batch (fun _ => SingleOutcome.failed)
        (analyze_batch (fun _ => SingleOutcome.failed) [] [samplePaper]).store
        [samplePaper]).store.length
      ≠ (([samplePaper].map Paper.id).dedup).length := by decide

namespace PaperAnalyzer

theorem filter_eq_after_filter_ne (x : String) (l : List AnalysisResult) :
    ((l.filter (fun e => extract_paper_id_from_result e ≠ x)).filter
      (fun e => extract_paper_id_from_result e = x)) = [] := by
  induction l with
  | nil => rfl
  | cons a l ih =>
    by_cases h : extract_paper_id_from_result a = x
    · simp [List.filter_cons, h, ih]
    · simp [List.filter_cons, h, ih]

end PaperAnalyzer

/-- A second paper sharing `samplePaper`'s id but with a different title. -/
def samplePaperB : Paper :=
  { samplePaper with title := "B Title", translation := "B Title" }

/-- Claim C10: the skip set is fixed at batch start, so two same-id papers
absent from the store are both analyzed (none skipped, two processed), and
after both saves the store holds exactly one entry for that id — the later
paper's result, because each save filters out same-id entries first. -/
theorem analyze_batch_duplicate_ids (p1 p2 : Paper) (store₀ : List AnalysisResult)
    (r1 r2 : AnalysisResult) (oracle : Paper → SingleOutcome)
    (hid : p2.id = p1.id)
    (hstore : ∀ e ∈ store₀, extract_paper_id_from_result e ≠ p1.id)
    (h1 : oracle p1 = SingleOutcome.succeeded r1)
    (h2 : oracle p2 = SingleOutcome.succeeded r2)
    (hr1 : r1.id = p1.id) (hr2 : r2.id = p1.id) :
    (analyze_batch oracle store₀ [p1, p2]).stats.skipped = 0
    ∧ (analyze_batch oracle store₀ [p1, p2]).stats.processed = 2
    ∧ (analyze_batch oracle store₀ [p1, p2]).store.filter
        (fun e => extract_paper_id_from_result e = p1.id) = [r2] := by
  have hn1 : p1.id ∉ store₀.map extract_paper_id_from_result := by
    intro hmem
    obtain ⟨e, he, heq⟩ := List.mem_map.mp hmem
    exact hstore e he heq
  have hn2 : p2.id ∉ store₀.map extract_paper_id_from_result := by
    rw [hid]; exact hn1
  have step1 : batchStep oracle (store₀.map extract_paper_id_from_result)
      ⟨[], store₀, ⟨0, 0, 0, 0⟩⟩ p1
      = ⟨[r1], save_single_result r1 store₀, ⟨1, 1, 0, 0⟩⟩ := by
    unfold batchStep
    rw [if_neg hn1, h1]
    rfl
  have step2 : batchStep oracle (store₀.map extract_paper_id_from_result)
      ⟨[r1], save_single_result r1 store₀, ⟨1, 1, 0, 0⟩⟩ p2
      = ⟨[r1, r2], save_single_result r2 (save_single_result r1 store₀),
          ⟨2, 2, 0, 0⟩⟩ := by
    unfold batchStep
    rw [if_neg hn2, h2]
    rfl
  have hbatch : analyze_batch oracle store₀ [p1, p2]
      = ⟨[r1, r2], save_single_result r2 (save_single_result r1 store₀),
          ⟨2, 2, 0, 0⟩⟩ := by
    unfold analyze_batch
    simp only [List.foldl_cons, List.foldl_nil]
    rw [step1, step2]
  rw [hbatch]
  refine ⟨rfl, rfl, ?_⟩
  show (save_single_result r2 (save_single_result r1 store₀)).filter
      (fun e => extract_paper_id_from_result e = p1.id) = [r2]
  conv_lhs => rw [save_single_result]
  rw [List.filter_append, ← hr2, filter_eq_after_filter_ne r2.id]
  simp [extract_paper_id_from_result]

theorem analyze_batch_duplicate_ids_witness :
    (analyze_batch (successOracle basicResult) [] [samplePaper, samplePaperB]).stats.skipped = 0
    ∧ (analyze_batch (successOracle basicResult) [] [samplePaper, samplePaperB]).stats.processed = 2
    ∧ (analyze_batch (successOracle basicResult) [] [samplePaper, samplePaperB]).store.filter
        (fun e => extract_paper_id_from_result e = samplePaper.id)
        = [basicResult samplePaperB] :=
  analyze_batch_duplicate_ids samplePaper samplePaperB [] (basicResult samplePaper)
    (basicResult samplePaperB) (successOracle basicResult) rfl
    (by simp) rfl rfl rfl rfl
